import Mathlib

/-!
# envoy-simple: a static responder on 127.0.0.1:5555

A shallow embedding of `src/main.go`:

    func main() {
        http.HandleFunc("/", func(w http.ResponseWriter, r *http.Request) {
            fmt.Fprintf(w, "Success!\n")
        })
        log.Fatal(http.ListenAndServe("127.0.0.1:5555", nil))
    }

`main.go` is three calls into Go's standard library, so the development
embeds, next to `main` and its anonymous handler, the library functions
those calls reach (`fmt.Fprintf`, `http.HandleFunc`, the `ServeMux`
dispatch, `(*conn).serve`, `http.ListenAndServe`, `Server.Serve`,
`log.Fatal`).  Library code whose text the statements do not need, and what
differs between Go releases (the status of the mux's redirects), is taken
as a parameter (`Stdlib`) instead of being fixed.

Go strings are Lean strings, byte slices are lists of naturals below 256.
Each accepted connection is served by a goroutine of its own: the
environment decides, one request at a time, which connection runs next.
-/

namespace EnvoySimple

/-! ## Strings and byte slices -/

/-- The bytes of a Go string (its UTF-8 encoding), as in `[]byte(s)`. -/
def bytes (s : String) : List Nat :=
  (s.data.flatMap String.utf8EncodeChar).map UInt8.toNat

/-- Go `len(s)` of a string: the number of bytes. -/
def len (s : String) : Nat := (bytes s).length

/-! ## net/http: requests, headers, the ResponseWriter interface -/

/-- Go `http.Header`: a map from field name to its values. -/
abbrev Header := List (String × List String)

/-- What the server has read from a connection for one request, as the
fields of `*http.Request` that the server and the mux inspect: `Method`,
`RequestURI` (the raw request target), `Host`, `URL.Host`, `URL.Path`,
`URL.EscapedPath()`, `URL.RawQuery` (the parser derives the last four from
the target), the protocol version test `ProtoAtLeast(1, 1)`, the request
header and the body.  The handler of `main.go` reads none of them. -/
structure Request where
  Method : String
  RequestURI : String
  Host : String
  URLHost : String
  Path : String
  EscapedPath : String
  RawQuery : String
  ProtoAtLeast11 : Bool
  Header : EnvoySimple.Header
  Body : List Nat
  deriving DecidableEq, Repr

/-- Go `error`, as the message it prints. -/
abbrev Error := String

/-- The interface `http.ResponseWriter` over an implementation with state
`σ`.  `Header()` returns a reference to a mutable map: `Header` reads the
map and `SetHeader` stands for any mutation made through the reference.
`Write` returns the new state with Go's results `(n, err)`. -/
structure ResponseWriter (σ : Type) where
  Header : σ → EnvoySimple.Header
  SetHeader : σ → EnvoySimple.Header → σ
  Write : σ → List Nat → σ × Nat × Option Error
  WriteHeader : σ → Nat → σ

/-- Go `http.Handler` (and `http.HandlerFunc`): code that runs against any
implementation of the `ResponseWriter` interface. -/
def Handler : Type 1 := (σ : Type) → ResponseWriter σ → σ → Request → σ

/-! ## fmt.Fprintf -/

/-- The loop of `(*pp).doPrintf` for a call without operands.  Bytes other
than `%` (37) are copied to the buffer; at a `%` the directive is handed to
`printVerb`, which gets the format after the `%` and returns what the
directive prints and how many bytes of the format it consumed (flags,
width, precision and verb).  `skip` counts the bytes of the current
directive not yet passed. -/
def doPrintf (printVerb : List Nat → List Nat × Nat) : List Nat → Nat → List Nat
  | [], _ => []
  | _ :: rest, skip + 1 => doPrintf printVerb rest skip
  | c :: rest, 0 =>
    if c = 37 then
      (printVerb rest).1 ++ doPrintf printVerb rest (printVerb rest).2
    else
      c :: doPrintf printVerb rest 0

/-- Go `fmt.Fprintf(w, format)`: formats into a buffer, then hands the
buffer to `w` in ONE `Write` call, whose results it returns. -/
def Fprintf (printVerb : List Nat → List Nat × Nat) {σ : Type} (W : ResponseWriter σ)
    (w : σ) (format : String) : σ × Nat × Option Error :=
  W.Write w (doPrintf printVerb (bytes format) 0)

/-! ## main.go: the handler -/

/-- The anonymous handler of `main.go` (lines 10-12):
`func(w http.ResponseWriter, r *http.Request) { fmt.Fprintf(w, "Success!\n") }`.
The results of `Fprintf` are dropped, as in the source. -/
def handler (printVerb : List Nat → List Nat × Nat) : Handler :=
  fun _ W w _ => (Fprintf printVerb W w "Success!\n").1

/-- One call made on a response writer. -/
inductive Call where
  | SetHeader (h : Header)
  | Write (p : List Nat)
  | WriteHeader (code : Nat)
  deriving DecidableEq, Repr

/-- A response writer that only records, in order, the calls made on it. -/
def recorder : ResponseWriter (List Call) where
  Header := fun _ => []
  SetHeader := fun s h => s ++ [Call.SetHeader h]
  Write := fun s p => (s ++ [Call.Write p], p.length, none)
  WriteHeader := fun s code => s ++ [Call.WriteHeader code]

/-! ## Library code taken as a parameter -/

/-- A redirect target, Go `url.URL` with the two fields the mux fills in. -/
structure URL where
  Path : String
  RawQuery : String
  deriving DecidableEq, Repr

/-- The library code that `main.go` can reach and that is not spelled out
here: how `fmt` prints one `%` directive; `stripHostPort`; the stock
handlers `http.NotFoundHandler()`, `http.RedirectHandler(url, code)` (given
the URL before it is rendered) and `globalOptionsHandler`; the status the
mux redirects with (`StatusMovedPermanently`, 301, in older releases of Go,
`StatusTemporaryRedirect`, 307, in recent ones); and the checks of
`(*conn).readRequest` on what was read (protocol version, Host header,
header names and values): `readRequestError` gives the status and the body
of the error reply, or `none` when the request is accepted.  The general
statements below hold for all values of these. -/
structure Stdlib where
  printVerb : List Nat → List Nat × Nat
  stripHostPort : String → String
  NotFoundHandler : Handler
  RedirectHandler : URL → Nat → Handler
  globalOptionsHandler : Handler
  redirectStatus : Nat
  readRequestError : Request → Option (Nat × List Nat)

/-! ## net/http: the server's response writer -/

/-- Go `Header.get`: the first value stored under `key`, or `""`. -/
def Header.get (h : Header) (key : String) : String :=
  match h.find? (fun kv => kv.1 = key) with
  | some (_, v :: _) => v
  | _ => ""

/-- Go `Header.Del`: removes `key`. -/
def Header.Del (h : Header) (key : String) : Header :=
  h.filter (fun kv => kv.1 ≠ key)

/-- Go `Header.Set` for a key already in canonical form: `key` now maps to
the single value `value`. -/
def Header.Set (h : Header) (key value : String) : Header :=
  (key, [value]) :: Header.Del h key

/-- Go `strconv.ParseInt(s, 10, 64)` followed by the test `v >= 0` of
`response.WriteHeader`: an optional sign, then one or more decimal digits,
the value within int64 and not negative. -/
def parseContentLength (s : String) : Option Nat :=
  let digits (cs : List Char) : Option Nat :=
    if cs ≠ [] ∧ cs.all Char.isDigit then
      some (cs.foldl (fun n c => 10 * n + (c.toNat - 48)) 0)
    else none
  match s.data with
  | '-' :: cs => match digits cs with
    | some 0 => some 0
    | _ => none
  | '+' :: cs => match digits cs with
    | some v => if v < 2 ^ 63 then some v else none
    | none => none
  | cs => match digits cs with
    | some v => if v < 2 ^ 63 then some v else none
    | none => none

/-- Go `bodyAllowedForStatus`. -/
def bodyAllowedForStatus (status : Nat) : Bool :=
  if 100 ≤ status ∧ status ≤ 199 then false
  else if status = 204 then false
  else if status = 304 then false
  else true

/-- The server's `*http.response`, the writer every handler of the server
receives: the request it answers, the header map handed out by `Header()`,
whether the status line is decided and which status, the declared
Content-Length (`none` for Go's -1), the count of body bytes written, the
body bytes passed on to the connection and the statuses of the interim
(1xx) responses sent.  Hijacking, the automatic `100 Continue`, the
server's error log lines of the writer and the header block that goes on
the wire (Date, sniffed Content-Type, Content-Length) are left out. -/
structure response where
  req : Request
  handlerHeader : Header
  wroteHeader : Bool
  status : Nat
  contentLength : Option Nat
  written : Nat
  body : List Nat
  informational : List Nat
  deriving DecidableEq, Repr

/-- Go `(*response).WriteHeader`, for a code from 100 to 999 (the library
panics on any other).  A 1xx code other than 101 is sent as an interim
response and leaves the status open.  Otherwise the first call fixes the
status; a Content-Length set by the handler is recorded when valid and
deleted from the header map when not.  Calls after that change nothing. -/
def response.WriteHeader (w : response) (code : Nat) : response :=
  if w.wroteHeader then w
  else if 100 ≤ code ∧ code ≤ 199 ∧ code ≠ 101 then
    { w with informational := w.informational ++ [code] }
  else
    let w1 := { w with wroteHeader := true, status := code }
    let cl := Header.get w1.handlerHeader "Content-Length"
    if cl ≠ "" then
      match parseContentLength cl with
      | some v => { w1 with contentLength := some v }
      | none => { w1 with handlerHeader := Header.Del w1.handlerHeader "Content-Length" }
    else w1

/-- Go `(*response).Write` (`response.write`): a first write implies
`WriteHeader(StatusOK)`; empty data writes nothing; a status without body
and an overrun of the declared Content-Length are errors; the bytes reach
the connection except for a HEAD request, whose writes `chunkWriter.Write`
swallows. -/
def response.Write (w : response) (data : List Nat) : response × Nat × Option Error :=
  let w1 := if w.wroteHeader then w else response.WriteHeader w 200
  if data.length = 0 then (w1, 0, none)
  else if bodyAllowedForStatus w1.status = false then
    (w1, 0, some "http: request method or response status code does not allow body")
  else
    let w2 := { w1 with written := w1.written + data.length }
    match w2.contentLength with
    | some cl =>
      if w2.written > cl then (w2, 0, some "http: wrote more than the declared Content-Length")
      else ({ w2 with body := if w2.req.Method = "HEAD" then w2.body else w2.body ++ data },
            data.length, none)
    | none =>
      ({ w2 with body := if w2.req.Method = "HEAD" then w2.body else w2.body ++ data },
       data.length, none)

/-- The `ResponseWriter` implementation of `*http.response`. -/
def responseWriter : ResponseWriter response where
  Header := fun w => w.handlerHeader
  SetHeader := fun w h => { w with handlerHeader := h }
  Write := response.Write
  WriteHeader := response.WriteHeader

/-- The writer `conn.readRequest` creates for a request: an empty header
map, no status yet, unknown Content-Length. -/
def newResponse (req : Request) : response :=
  { req := req, handlerHeader := [], wroteHeader := false, status := 0,
    contentLength := none, written := 0, body := [], informational := [] }

/-- Go `(*response).finishRequest`: a handler that returned without
writing gets `WriteHeader(StatusOK)`. -/
def response.finishRequest (w : response) : response :=
  if w.wroteHeader then w else response.WriteHeader w 200

/-- Go `httptest.ResponseRecorder`, the library's in-memory response
writer: `Code`, `HeaderMap`, `Body` and whether the status is written. -/
structure ResponseRecorder where
  Code : Nat
  HeaderMap : Header
  Body : List Nat
  wroteHeader : Bool
  deriving DecidableEq, Repr

/-- Go `httptest.NewRecorder()`. -/
def NewRecorder : ResponseRecorder :=
  { Code := 200, HeaderMap := [], Body := [], wroteHeader := false }

/-- Go `(*ResponseRecorder).WriteHeader`. -/
def ResponseRecorder.WriteHeader (rw : ResponseRecorder) (code : Nat) : ResponseRecorder :=
  if rw.wroteHeader then rw else { rw with Code := code, wroteHeader := true }

/-- Go `(*ResponseRecorder).Write` with its helper `writeHeader(b, "")`: a
first write stores a Content-Type in the recorder's OWN header map when the
map has neither a Content-Type nor a Transfer-Encoding, then writes status
200; the bytes are appended to `Body`.  `DetectContentType` is taken at its
value for plain text, the only data written here. -/
def ResponseRecorder.Write (rw : ResponseRecorder) (buf : List Nat) :
    ResponseRecorder × Nat × Option Error :=
  let rw1 :=
    if rw.wroteHeader then rw
    else
      let hasType := rw.HeaderMap.any (fun kv => kv.1 = "Content-Type")
      let hasTE := Header.get rw.HeaderMap "Transfer-Encoding" ≠ ""
      let m := if ¬ hasType ∧ ¬ hasTE then
          Header.Set rw.HeaderMap "Content-Type" "text/plain; charset=utf-8"
        else rw.HeaderMap
      ResponseRecorder.WriteHeader { rw with HeaderMap := m } 200
  ({ rw1 with Body := rw1.Body ++ buf }, buf.length, none)

/-- The `ResponseWriter` implementation of `*httptest.ResponseRecorder`. -/
def responseRecorder : ResponseWriter ResponseRecorder where
  Header := fun rw => rw.HeaderMap
  SetHeader := fun rw h => { rw with HeaderMap := h }
  Write := ResponseRecorder.Write
  WriteHeader := ResponseRecorder.WriteHeader

/-! ## path.Clean and the mux's cleanPath -/

/-- Where the loop of `path.Clean` stands: at the start of a path element,
inside the copy loop of a real element, or on the second dot of a `..`
element (the `r += 2`). -/
inductive CleanMode where
  | elem
  | copy
  | skip
  deriving DecidableEq, Repr

/-- The test `r == n || path[r] == '/'` on the rest of the path. -/
def endsElem (rest : List Char) : Bool :=
  match rest with
  | [] => true
  | c :: _ => c = '/'

/-- The inner loop of the `..` case of `path.Clean`, after `out.w--`:
`for out.w > dotdot && out.index(out.w) != '/' { out.w-- }`, on the buffer
`buf` as it stood before the element. -/
def backtrackTo (buf : List Char) (dotdot : Nat) : Nat → Nat
  | 0 => 0
  | w + 1 =>
    if w + 1 > dotdot ∧ buf.getD (w + 1) '/' ≠ '/' then backtrackTo buf dotdot w else w + 1

/-- The main loop of Go `path.Clean` over the unread rest of the path, with
the output buffer `out` (its length is `out.w`) and `dotdot`.  The four
cases of the source's `switch`: an empty element, a `.` element, a `..`
element (backtrack when `out.w > dotdot`, else append `..` when not rooted),
a real element (a slash when needed, then the copy loop). -/
def cleanLoop (rooted : Bool) : List Char → CleanMode → List Char → Nat → List Char
  | [], _, out, _ => out
  | _ :: t, CleanMode.skip, out, dotdot => cleanLoop rooted t CleanMode.elem out dotdot
  | c :: t, CleanMode.copy, out, dotdot =>
    if c = '/' then cleanLoop rooted t CleanMode.elem out dotdot
    else cleanLoop rooted t CleanMode.copy (out ++ [c]) dotdot
  | c :: t, CleanMode.elem, out, dotdot =>
    if c = '/' then cleanLoop rooted t CleanMode.elem out dotdot
    else if c = '.' ∧ endsElem t then cleanLoop rooted t CleanMode.elem out dotdot
    else if c = '.' ∧ t.head? = some '.' ∧ endsElem t.tail then
      if out.length > dotdot then
        cleanLoop rooted t CleanMode.skip
          (out.take (backtrackTo out dotdot (out.length - 1))) dotdot
      else if rooted = false then
        let out1 := (if out.length > 0 then out ++ ['/'] else out) ++ ['.', '.']
        cleanLoop rooted t CleanMode.skip out1 out1.length
      else cleanLoop rooted t CleanMode.skip out dotdot
    else
      let out1 :=
        if (rooted ∧ out.length ≠ 1) ∨ (rooted = false ∧ out.length ≠ 0) then out ++ ['/']
        else out
      cleanLoop rooted t CleanMode.copy (out1 ++ [c]) dotdot

/-- Go `path.Clean` on the characters of the path. -/
def cleanChars (path : List Char) : List Char :=
  match path with
  | [] => ['.']
  | c :: t =>
    let out :=
      if c = '/' then cleanLoop true t CleanMode.elem ['/'] 1
      else cleanLoop false (c :: t) CleanMode.elem [] 0
    if out.length = 0 then ['.'] else out

/-- Go `path.Clean`. -/
def Clean (path : String) : String := String.mk (cleanChars path.data)

/-- The mux's `cleanPath`: the canonical form of a request path.  The empty
path is `/`; a leading slash is added when missing; `path.Clean` is applied
and the trailing slash it removed is put back (the source's fast path
`np = p` gives the same string as `np += "/"`). -/
def cleanPath (p : String) : String :=
  if p = "" then "/"
  else
    let p1 := if p.data.head? ≠ some '/' then "/" ++ p else p
    let np := Clean p1
    if p1.data.getLast? = some '/' ∧ np ≠ "/" then np ++ "/" else np

/-! ## net/http: ServeMux -/

/-- Go `muxEntry`: a registered handler and its pattern. -/
structure muxEntry where
  h : Handler
  pattern : String

/-- Go `http.ServeMux` as a path-prefix mux (the mux up to Go 1.21, kept as
`serveMux121` since; for the pattern `/` and paths that start with a slash
the routing tree of later releases selects the same handler): the map `m`
from pattern to entry (an association list without repeated keys: `Handle`
refuses duplicates), the entries `es` whose pattern ends in a slash, longest
first, and `hosts`, whether some pattern starts with a host name. -/
structure ServeMux where
  m : List (String × muxEntry)
  es : List muxEntry
  hosts : Bool

/-- The package variable `http.DefaultServeMux` at program start: an empty
mux (`main.go` imports no package that registers on it). -/
def DefaultServeMux : ServeMux := { m := [], es := [], hosts := false }

/-- The patterns registered on a mux. -/
def ServeMux.patterns (mux : ServeMux) : List String := mux.m.map (fun kv => kv.1)

/-- Go `appendSorted`: inserts `e` before the first entry with a shorter
pattern (the index `sort.Search` finds in the list sorted longest first). -/
def appendSorted (es : List muxEntry) (e : muxEntry) : List muxEntry :=
  es.takeWhile (fun x => ¬ (len x.pattern < len e.pattern)) ++ e ::
    es.dropWhile (fun x => ¬ (len x.pattern < len e.pattern))

/-- Go `(*ServeMux).Handle`; a panic is the `error` result.  `handler` is
`none` for Go's nil. -/
def ServeMux.Handle (mux : ServeMux) (pattern : String) (handler : Option Handler) :
    Except String ServeMux :=
  if pattern = "" then Except.error "http: invalid pattern"
  else
    match handler with
    | none => Except.error "http: nil handler"
    | some h =>
      if mux.m.any (fun kv => kv.1 = pattern) then
        Except.error ("http: multiple registrations for " ++ pattern)
      else
        let e : muxEntry := { h := h, pattern := pattern }
        Except.ok
          { m := mux.m ++ [(pattern, e)]
            es := if pattern.data.getLast? = some '/' then appendSorted mux.es e else mux.es
            hosts := if pattern.data.head? ≠ some '/' then true else mux.hosts }

/-- Go `(*ServeMux).HandleFunc`: panics on a nil handler, else `Handle`. -/
def ServeMux.HandleFunc (mux : ServeMux) (pattern : String) (handler : Option Handler) :
    Except String ServeMux :=
  match handler with
  | none => Except.error "http: nil handler"
  | some h => ServeMux.Handle mux pattern (some h)

/-- Go `http.HandleFunc(pattern, handler)`:
`DefaultServeMux.HandleFunc(pattern, handler)`, on the current value of the
package variable. -/
def HandleFunc (defaultMux : ServeMux) (pattern : String) (handler : Option Handler) :
    Except String ServeMux :=
  ServeMux.HandleFunc defaultMux pattern handler

/-- Which handler the mux selects for a request: a registered one, a
redirect (`RedirectHandler(u.String(), code)`) or `NotFoundHandler()`; each
with the pattern Go returns next to it. -/
inductive Route where
  | registered (h : Handler) (pattern : String)
  | redirect (u : URL) (code : Nat) (pattern : String)
  | notFound

/-- Go `(*ServeMux).match`: an exact match in `m` first, else the first
(longest) entry of `es` whose pattern starts the path. -/
def ServeMux.match (mux : ServeMux) (path : String) : Option muxEntry :=
  match mux.m.find? (fun kv => kv.1 = path) with
  | some (_, v) => some v
  | none => mux.es.find? (fun e => e.pattern.data.isPrefixOf path.data)

/-- Go `(*ServeMux).handler`: a host-specific pattern wins over a generic
one; no match is `NotFoundHandler()`. -/
def ServeMux.handler (mux : ServeMux) (host path : String) : Route :=
  let h := if mux.hosts then ServeMux.match mux (host ++ path) else none
  match h with
  | some e => Route.registered e.h e.pattern
  | none =>
    match ServeMux.match mux path with
    | some e => Route.registered e.h e.pattern
    | none => Route.notFound

/-- The pattern Go returns next to the handler. -/
def Route.pattern : Route → String
  | Route.registered _ pattern => pattern
  | Route.redirect _ _ pattern => pattern
  | Route.notFound => ""

/-- Go `(*ServeMux).shouldRedirectRLocked`: `path` (or `host+path`) is not
registered, but the same with a slash appended is. -/
def ServeMux.shouldRedirectRLocked (mux : ServeMux) (host path : String) : Bool :=
  let has (c : String) : Bool := mux.m.any (fun kv => kv.1 = c)
  if has path ∨ has (host ++ path) then false
  else if len path = 0 then false
  else if has (path ++ "/") then path.data.getLast? ≠ some '/'
  else if has (host ++ path ++ "/") then path.data.getLast? ≠ some '/'
  else false

/-- The handler selection of the mux (`(*ServeMux).Handler`,
`findHandler`), for patterns that are plain paths.  The path it works on is
the escaped path of the request.  A CONNECT request is not canonicalized.
Any other request has its path cleaned, and when the cleaned path differs
from the request's the mux answers with a redirect to the cleaned path,
with the status `lib.redirectStatus`, instead of calling a registered
handler. -/
def ServeMux.Handler (lib : Stdlib) (mux : ServeMux) (r : Request) : Route :=
  if r.Method = "CONNECT" then
    if ServeMux.shouldRedirectRLocked mux r.URLHost r.EscapedPath then
      Route.redirect { Path := r.EscapedPath ++ "/", RawQuery := r.RawQuery }
        lib.redirectStatus (r.EscapedPath ++ "/")
    else ServeMux.handler mux r.Host r.EscapedPath
  else
    let host := lib.stripHostPort r.Host
    let path := cleanPath r.EscapedPath
    if ServeMux.shouldRedirectRLocked mux host path then
      Route.redirect { Path := path ++ "/", RawQuery := r.RawQuery }
        lib.redirectStatus (path ++ "/")
    else if path ≠ r.EscapedPath then
      Route.redirect { Path := path, RawQuery := r.RawQuery } lib.redirectStatus
        (ServeMux.handler mux host path).pattern
    else ServeMux.handler mux host r.EscapedPath

/-- The handler a route stands for. -/
def Route.toHandler (lib : Stdlib) : Route → Handler
  | Route.registered h _ => h
  | Route.redirect u code _ => lib.RedirectHandler u code
  | Route.notFound => lib.NotFoundHandler

/-- Go `(*ServeMux).ServeHTTP`: the request target `*` is answered with 400
Bad Request (and `Connection: close` from HTTP/1.1 on); any other request
goes to the handler `Handler` selects. -/
def ServeMux.ServeHTTP (lib : Stdlib) (mux : ServeMux) : EnvoySimple.Handler :=
  fun σ W w r =>
    if r.RequestURI = "*" then
      let w1 :=
        if r.ProtoAtLeast11 then W.SetHeader w (Header.Set (W.Header w) "Connection" "close")
        else w
      W.WriteHeader w1 400
    else (ServeMux.Handler lib mux r).toHandler lib σ W w r

/-! ## net/http: Server -/

/-- Go `http.Server`, the two fields `ListenAndServe` sets: the address
and the handler (`none` for nil). -/
structure Server where
  Addr : String
  Handler : Option EnvoySimple.Handler

/-- Go `serverHandler.ServeHTTP`: a nil `Handler` means the package's
`DefaultServeMux`; `OPTIONS *` goes to `globalOptionsHandler`. -/
def serverHandler (lib : Stdlib) (srv : Server) (defaultMux : ServeMux) : Handler :=
  fun σ W w r =>
    let handler : EnvoySimple.Handler :=
      match srv.Handler with
      | none => ServeMux.ServeHTTP lib defaultMux
      | some h => h
    let handler : EnvoySimple.Handler :=
      if r.RequestURI = "*" ∧ r.Method = "OPTIONS" then lib.globalOptionsHandler else handler
    handler σ W w r

/-- Go `isTokenBoundary`. -/
def isTokenBoundary (b : Char) : Bool := b = ' ' ∨ b = ',' ∨ b = '\t'

/-- Go `ascii.EqualFold`: equal up to the case of ASCII letters. -/
def EqualFold (s t : List Char) : Bool :=
  s.map Char.toLower = t.map Char.toLower

/-- The loop of Go `hasToken` from position `sp` on, where `v` is the rest
of the value from `sp` and `prev` the byte before it (`none` at `sp = 0`):
the first byte fits (`b == token[0]` or `b|0x20 == token[0]`), both ends are
token boundaries, and the bytes fold to the token. -/
def hasTokenFrom (token : List Char) : Option Char → List Char → Bool
  | _, [] => false
  | prev, b :: rest =>
    (decide ((b :: rest).length ≥ token.length) &&
      (decide (some b = token.head?) ||
        decide (some (b.toNat ||| 32) = token.head?.map Char.toNat)) &&
      (match prev with
        | none => true
        | some c => isTokenBoundary c) &&
      (match (b :: rest).drop token.length with
        | [] => true
        | c :: _ => isTokenBoundary c) &&
      EqualFold ((b :: rest).take token.length) token)
    || hasTokenFrom token (some b) rest

/-- Go `hasToken(v, token)`: `token` occurs in `v` as a whole token, in any
case. -/
def hasToken (v token : String) : Bool :=
  if token.data.length > v.data.length ∨ token = "" then false
  else if v = token then true
  else hasTokenFrom token.data none v.data

/-- Go `(*Request).expectsContinue`. -/
def Request.expectsContinue (r : Request) : Bool :=
  hasToken (Header.get r.Header "Expect") "100-continue"

/-- The test of `(*conn).serve` that ends in `sendExpectationFailed`: the
request has an Expect header and it does not ask for `100-continue`. -/
def expectationFailed (r : Request) : Bool :=
  ¬ r.expectsContinue ∧ Header.get r.Header "Expect" ≠ ""

/-- Go `(*response).sendExpectationFailed`: `Connection: close`, status 417,
no body. -/
def response.sendExpectationFailed (w : response) : response :=
  response.finishRequest
    (response.WriteHeader
      { w with handlerHeader := Header.Set w.handlerHeader "Connection" "close" } 417)

/-- The reply `(*conn).serve` writes itself when `readRequest` fails with
status `code`: that status and the error text as body. -/
def errorReply (r : Request) (code : Nat) (body : List Nat) : response :=
  { newResponse r with wroteHeader := true, status := code, body := body }

/-- One request on a connection, as in `(*conn).serve`.  A request that
`readRequest` refuses gets the error reply; one with an Expect header other
than `100-continue` gets 417; any other gets a new response writer, the
server's handler and `finishRequest`. -/
def serveRequest (lib : Stdlib) (srv : Server) (defaultMux : ServeMux) (r : Request) :
    response :=
  match lib.readRequestError r with
  | some (code, body) => errorReply r code body
  | none =>
    if expectationFailed r then response.sendExpectationFailed (newResponse r)
    else
      response.finishRequest
        (serverHandler lib srv defaultMux response responseWriter (newResponse r) r)

/-- Whether `(*conn).serve` returns, closing the connection, after its reply
to `r`: it does after an error reply and after 417. -/
def closesConn (lib : Stdlib) (r : Request) : Bool :=
  (lib.readRequestError r).isSome ∨ expectationFailed r

/-! ## The process and its environment -/

/-- What one call of `l.Accept()` gives the serve loop: a connection, with
the requests the server reads from it while it keeps the connection open,
or an error, temporary (`net.Error.Temporary()`) or not. -/
inductive AcceptResult where
  | conn (requests : List Request)
  | error (err : Error) (temporary : Bool)
  deriving DecidableEq, Repr

/-- Everything outside the program: the command line, the environment
variables, whether `net.Listen(network, address)` fails (`none`: the
listener is created), what the k-th `Accept` returns, and the scheduling of
the connection goroutines: `Schedule k` lists the connections, numbered in
the order they were accepted, that get to serve one request each between
the return of the k-th `Accept` and that of the next (or the exit of the
process). -/
structure World where
  args : List String
  environ : List (String × String)
  Listen : String → String → Option Error
  Accept : Nat → AcceptResult
  Schedule : Nat → List Nat

/-- The states of the process: before the socket is bound, listening, and
ended with an exit code. -/
inductive Phase where
  | NotListening
  | Listening
  | Terminated (code : Nat)
  deriving DecidableEq, Repr

/-- What the process did, in order. -/
inductive Event where
  | Registered (pattern : String)
  | Listen (network address : String)
  | Served (r : Request) (resp : response)
  | Logged (msg : String)
  | Exit (code : Nat)
  deriving DecidableEq, Repr

/-- The process: the package variable `http.DefaultServeMux`, the phase,
the events so far and, for each accepted connection, the requests its
goroutine `c.serve()` has still to serve. -/
structure Process where
  DefaultServeMux : ServeMux
  phase : Phase
  trace : List Event
  conns : List (List Request)

/-- One turn of the goroutine of connection `i`: the next request of that
connection, if there is one, is served by `(*conn).serve` with the value
`DefaultServeMux` has at that moment; a reply that closes the connection
drops the rest. -/
def serveNext (lib : Stdlib) (srv : Server) (p : Process) (i : Nat) : Process :=
  match p.conns.get? i with
  | some (r :: rest) =>
    { p with
      trace := p.trace ++ [Event.Served r (serveRequest lib srv p.DefaultServeMux r)]
      conns := p.conns.set i (if closesConn lib r then [] else rest) }
  | _ => p

/-- The connection goroutines run in the order the scheduler picks. -/
def runGoroutines (lib : Stdlib) (srv : Server) (p : Process) : List Nat → Process
  | [] => p
  | i :: rest => runGoroutines lib srv (serveNext lib srv p i) rest

/-- Go `time.Duration.String()` for the delays of the accept loop, given in
milliseconds: 5ms, 10ms, ... 640ms, 1s. -/
def durationString (ms : Nat) : String :=
  if ms ≥ 1000 then "1s" else toString ms ++ "ms"

/-- The accept loop of Go `(*Server).Serve`, run for at most `fuel` calls
of `Accept`, the next one being the k-th, with the current `tempDelay` in
milliseconds.  A temporary error is logged on the standard logger
(`srv.logf`, no `ErrorLog` being set) and retried after a delay that starts
at 5ms and doubles up to 1s; any other error is returned; a connection gets
a goroutine `c.serve()` and resets the delay.  After each return of
`Accept`, until the next one or until the process exits, the connection
goroutines run as the world schedules them.
(`main.go` never calls `Shutdown` or `Close`, so the loop has no other
exit.)  The result `none` means the loop is still blocked in `Accept`. -/
def Serve (lib : Stdlib) (world : World) (srv : Server) :
    Nat → Nat → Nat → Process → Process × Option Error
  | 0, _, _, p => (p, none)
  | fuel + 1, k, tempDelay, p =>
    match world.Accept k with
    | AcceptResult.error err temporary =>
      if temporary then
        let delay := if tempDelay = 0 then 5 else min (2 * tempDelay) 1000
        let p1 := { p with
          trace := p.trace ++
            [Event.Logged ("http: Accept error: " ++ err ++ "; retrying in " ++
              durationString delay)] }
        Serve lib world srv fuel (k + 1) delay (runGoroutines lib srv p1 (world.Schedule k))
      else (runGoroutines lib srv p (world.Schedule k), some err)
    | AcceptResult.conn requests =>
      Serve lib world srv fuel (k + 1) 0
        (runGoroutines lib srv { p with conns := p.conns ++ [requests] } (world.Schedule k))

/-- Go `http.ListenAndServe(addr, handler)`: a `Server` with that address
and handler; an empty address means `:http`; `net.Listen("tcp", addr)`, whose
error is returned at once; else `Serve` on the listener. -/
def ListenAndServe (lib : Stdlib) (world : World) (fuel : Nat) (p : Process)
    (addr : String) (handler : Option Handler) : Process × Option Error :=
  let srv : Server := { Addr := addr, Handler := handler }
  let addr1 := if srv.Addr = "" then ":http" else srv.Addr
  let p1 := { p with trace := p.trace ++ [Event.Listen "tcp" addr1] }
  match world.Listen "tcp" addr1 with
  | some err => (p1, some err)
  | none => Serve lib world srv fuel 0 0 { p1 with phase := Phase.Listening }

/-- Go `log.Fatal(err)`: prints the error on the standard logger, then
`os.Exit(1)`, which ends the connection goroutines with the process.  (The
logger's date and time are not modelled.) -/
def Fatal (p : Process) (err : Error) : Process :=
  { p with phase := Phase.Terminated 1, trace := p.trace ++ [Event.Logged err, Event.Exit 1] }

/-- The program `main.go`, observed after at most `fuel` calls of `Accept`:
register the handler for `/` on the default mux (a panic there ends the
process with exit code 2), then `log.Fatal(http.ListenAndServe(
"127.0.0.1:5555", nil))`.  While `ListenAndServe` has not returned the
process is as the serve loop left it. -/
def main (lib : Stdlib) (world : World) (fuel : Nat) : Process :=
  match HandleFunc DefaultServeMux "/" (some (handler lib.printVerb)) with
  | Except.error msg =>
    { DefaultServeMux := DefaultServeMux, phase := Phase.Terminated 2
      trace := [Event.Logged ("panic: " ++ msg), Event.Exit 2], conns := [] }
  | Except.ok mux =>
    let p : Process :=
      { DefaultServeMux := mux, phase := Phase.NotListening, trace := [Event.Registered "/"]
        conns := [] }
    match ListenAndServe lib world fuel p "127.0.0.1:5555" none with
    | (p1, some err) => Fatal p1 err
    | (p1, none) => p1

/-- The responses the process has sent. -/
def Process.responses (p : Process) : List response :=
  p.trace.filterMap (fun e => match e with
    | Event.Served _ resp => some resp
    | _ => none)

/-- The lines the process has logged. -/
def Process.logged (p : Process) : List String :=
  p.trace.filterMap (fun e => match e with
    | Event.Logged msg => some msg
    | _ => none)

/-- The addresses the process has tried to bind. -/
def Process.listens (p : Process) : List (String × String) :=
  p.trace.filterMap (fun e => match e with
    | Event.Listen network address => some (network, address)
    | _ => none)

/-- The patterns the process has registered. -/
def Process.registrations (p : Process) : List String :=
  p.trace.filterMap (fun e => match e with
    | Event.Registered pattern => some pattern
    | _ => none)

/-- The first `Accept` error that is not temporary among at most `fuel`
calls from the k-th on, if there is one. -/
def acceptError (world : World) : Nat → Nat → Option Error
  | 0, _ => none
  | fuel + 1, k =>
    match world.Accept k with
    | AcceptResult.error err temporary =>
      if temporary then acceptError world fuel (k + 1) else some err
    | AcceptResult.conn _ => acceptError world fuel (k + 1)

/-- The server `ListenAndServe("127.0.0.1:5555", nil)` builds. -/
def mainServer : Server := { Addr := "127.0.0.1:5555", Handler := none }

/-- An event of the serving phase: the reply to a request, as
`(*conn).serve` computes it with the mux `mux`, or a log line of the accept
loop. -/
def Event.isServing (lib : Stdlib) (srv : Server) (mux : ServeMux) (e : Event) : Prop :=
  (∃ r, e = Event.Served r (serveRequest lib srv mux r)) ∨ ∃ msg, e = Event.Logged msg

/-- The process `q` continues `p` by serving: same mux, same phase, same
events followed by events of the serving phase. -/
def Process.servesFrom (lib : Stdlib) (srv : Server) (p q : Process) : Prop :=
  q.DefaultServeMux = p.DefaultServeMux ∧ q.phase = p.phase ∧
    ∃ evs, q.trace = p.trace ++ evs ∧ ∀ e ∈ evs, Event.isServing lib srv p.DefaultServeMux e

/-- The error `ListenAndServe` has returned to `main` within `fuel` calls of
`Accept`, if it has returned: that of the bind, else the first `Accept`
error that is not temporary. -/
def mainError (world : World) (fuel : Nat) : Option Error :=
  match world.Listen "tcp" "127.0.0.1:5555" with
  | some err => some err
  | none => acceptError world fuel 0

/-- The events of `log.Fatal` on the error, none while there is no error. -/
def fatalEvents : Option Error → List Event
  | some err => [Event.Logged err, Event.Exit 1]
  | none => []

/-! ## Concrete requests and worlds -/

/-- A request as the server reads it from the request line `M P
HTTP/1.1` sent to the listening address with no header but Host, for a
path `P` without escapes. -/
def mkRequest (method path : String) : Request :=
  { Method := method, RequestURI := path, Host := "127.0.0.1:5555", URLHost := "",
    Path := path, EscapedPath := path, RawQuery := "", ProtoAtLeast11 := true, Header := [],
    Body := [] }

/-- Go `httpguts.ValidHostHeader`, by the table `validHostByte`: letters,
digits and the bytes a host name, an address or a port may hold. -/
def ValidHostHeader (h : String) : Bool :=
  h.data.all (fun c => c.isAlphanum ∨ c ∈ "!$%&()*+,-.:;=[]_~".data ∨ c.toNat = 39)

/-- A library instance for evaluating examples: directives print nothing,
the stock handlers write their status and nothing else, the mux redirects
with 307, and `readRequest` refuses a Host that is not valid. -/
def stubLib : Stdlib :=
  { printVerb := fun _ => ([], 0)
    stripHostPort := fun h => h
    NotFoundHandler := fun _ W w _ => W.WriteHeader w 404
    RedirectHandler := fun _ code _ W w _ => W.WriteHeader w code
    globalOptionsHandler := fun _ _ w _ => w
    redirectStatus := 307
    readRequestError := fun r =>
      if ValidHostHeader r.Host then none
      else some (400, bytes "400 Bad Request: malformed Host header") }

/-- The port is taken: `net.Listen` fails. -/
def worldPortInUse : World :=
  { args := ["envoy-simple"], environ := []
    Listen := fun _ _ => some "listen tcp 127.0.0.1:5555: bind: address already in use"
    Accept := fun _ => AcceptResult.conn [mkRequest "GET" "/"]
    Schedule := fun k => [k] }

/-- The bind succeeds and every `Accept` returns a connection carrying
`GET /` and `POST /anything/at/all`; after each `Accept` the newest
connection serves its first request, then the one before it its second (the
first connection both of its requests at once). -/
def worldServing : World :=
  { args := ["envoy-simple"], environ := []
    Listen := fun _ _ => none
    Accept := fun _ => AcceptResult.conn
      [mkRequest "GET" "/", { mkRequest "POST" "/anything/at/all" with Body := [120, 121] }]
    Schedule := fun k => [k, k - 1] }

/-- The bind succeeds and the first `Accept` fails for good. -/
def worldAcceptFails : World :=
  { args := ["envoy-simple"], environ := []
    Listen := fun _ _ => none
    Accept := fun _ => AcceptResult.error "accept tcp 127.0.0.1:5555: accept: cannot allocate memory" false
    Schedule := fun _ => [] }

/-- The bind succeeds, one connection with `GET /` is served, a temporary
`Accept` error is retried, and the next `Accept` fails for good. -/
def worldServesThenFails : World :=
  { args := ["envoy-simple", "-port", "8080"], environ := [("PORT", "8080")]
    Listen := fun _ _ => none
    Accept := fun k =>
      if k = 0 then AcceptResult.conn [mkRequest "GET" "/"]
      else if k = 1 then AcceptResult.error "accept tcp 127.0.0.1:5555: accept: too many open files" true
      else AcceptResult.error "accept tcp 127.0.0.1:5555: accept: no buffer space available" false
    Schedule := fun k => [k] }

/-- The value of `http.DefaultServeMux` once `h` is registered for `/` on
the empty mux. -/
def registeredMux (h : Handler) : ServeMux :=
  { m := [("/", { h := h, pattern := "/" })], es := [{ h := h, pattern := "/" }],
    hosts := false }

/-! ## Facts about the handler -/

theorem bytes_success : bytes "Success!\n" = [83, 117, 99, 99, 101, 115, 115, 33, 10] := by
  decide

theorem doPrintf_success (printVerb : List Nat → List Nat × Nat) :
    doPrintf printVerb (bytes "Success!\n") 0 = bytes "Success!\n" := by
  rw [bytes_success]
  simp [doPrintf]

theorem handler_eq_write (printVerb : List Nat → List Nat × Nat) (σ : Type)
    (W : ResponseWriter σ) (w : σ) (r : Request) :
    handler printVerb σ W w r = (W.Write w (bytes "Success!\n")).1 := by
  simp only [handler, Fprintf, doPrintf_success]

theorem HandleFunc_main (h : Handler) :
    HandleFunc DefaultServeMux "/" (some h) =
      Except.ok (registeredMux h) := by
  rfl

/-! ## Facts about path cleaning -/

theorem backtrackTo_ge (buf : List Char) (dotdot : Nat) :
    ∀ w, dotdot ≤ w → dotdot ≤ backtrackTo buf dotdot w := by
  intro w
  induction w with
  | zero => intro h; simpa [backtrackTo] using h
  | succ n ih =>
    intro h
    unfold backtrackTo
    split
    · next hc => exact ih (by omega)
    · exact h

theorem head_take_of_pos (out : List Char) (k : Nat) (hk : 1 ≤ k)
    (h : out.head? = some '/') : (out.take k).head? = some '/' := by
  cases out with
  | nil => simp at h
  | cons a l =>
    cases k with
    | zero => omega
    | succ k => simpa using h

theorem head_append_of_head (out l : List Char) (h : out.head? = some '/') :
    (out ++ l).head? = some '/' := by
  cases out with
  | nil => simp at h
  | cons a t => simpa using h

theorem cleanLoop_rooted_head :
    ∀ (t : List Char) (mode : CleanMode) (out : List Char), out.head? = some '/' →
      (cleanLoop true t mode out 1).head? = some '/' := by
  intro t
  induction t with
  | nil => intro mode out h; simpa [cleanLoop] using h
  | cons c t ih =>
    intro mode out h
    cases mode with
    | skip => simpa [cleanLoop] using ih _ out h
    | copy =>
      unfold cleanLoop
      split
      · exact ih _ out h
      · exact ih _ _ (head_append_of_head out [c] h)
    | elem =>
      unfold cleanLoop
      split
      · exact ih _ out h
      · split
        · exact ih _ out h
        · split
          · split
            · next hlen =>
              apply ih
              apply head_take_of_pos _ _ _ h
              exact backtrackTo_ge out 1 _ (by omega)
            · simp
              exact ih _ out h
          · apply ih
            apply head_append_of_head
            split
            · exact head_append_of_head out _ h
            · exact h

theorem cleanChars_rooted_head (t : List Char) :
    (cleanChars ('/' :: t)).head? = some '/' := by
  have h := cleanLoop_rooted_head t CleanMode.elem ['/'] rfl
  simp only [cleanChars, if_true]
  split
  · next h0 =>
    rw [List.length_eq_zero] at h0
    rw [h0] at h
    simp at h
  · exact h

theorem cleanPath_head (p : String) : (cleanPath p).data.head? = some '/' := by
  unfold cleanPath
  split
  · rfl
  · have key : ∀ q : String, q.data.head? = some '/' →
        (if q.data.getLast? = some '/' ∧ Clean q ≠ "/" then Clean q ++ "/" else Clean q).data.head?
          = some '/' := by
      intro q hq
      have hc : (Clean q).data.head? = some '/' := by
        cases hd : q.data with
        | nil => rw [hd] at hq; simp at hq
        | cons a t =>
          rw [hd] at hq
          simp at hq
          subst hq
          simp only [Clean, hd]
          exact cleanChars_rooted_head t
      split
      · rw [String.data_append]
        exact head_append_of_head _ _ hc
      · exact hc
    split
    · next hne =>
      apply key
      rw [String.data_append]
      rfl
    · next hne =>
      apply key
      simpa using hne

theorem head_of_cleanPath_eq (p : String) (h : cleanPath p = p) : p.data.head? = some '/' := by
  have := cleanPath_head p
  rwa [h] at this

/-! ## Facts about the mux after registration -/

theorem append_slash_ne (p : String) (hp : p.data.head? = some '/') : p ++ "/" ≠ "/" := by
  intro h
  have hd := congrArg String.data h
  rw [String.data_append] at hd
  cases hp2 : p.data with
  | nil => rw [hp2] at hp; simp at hp
  | cons a t =>
    rw [hp2] at hd
    have := congrArg List.length hd
    simp at this

theorem append_append_slash_ne (host p : String) (hp : p.data.head? = some '/') :
    host ++ p ++ "/" ≠ "/" := by
  intro h
  have hd := congrArg String.data h
  rw [String.data_append, String.data_append] at hd
  cases hp2 : p.data with
  | nil => rw [hp2] at hp; simp at hp
  | cons a t =>
    rw [hp2] at hd
    have := congrArg List.length hd
    simp at this
    omega

theorem shouldRedirect_registered (h : Handler) (host p : String)
    (hp : p.data.head? = some '/') :
    ServeMux.shouldRedirectRLocked (registeredMux h) host p = false := by
  have h1 := append_slash_ne p hp
  have h2 := append_append_slash_ne host p hp
  simp [ServeMux.shouldRedirectRLocked, registeredMux, Ne.symm h1, Ne.symm h2]

theorem match_registered (h : Handler) (p : String) (hp : p.data.head? = some '/') :
    ServeMux.match (registeredMux h) p = some { h := h, pattern := "/" } := by
  cases hd : p.data with
  | nil => rw [hd] at hp; simp at hp
  | cons a t =>
    rw [hd] at hp
    simp at hp
    subst hp
    by_cases hx : "/" = p
    · simp [ServeMux.match, registeredMux, hx]
    · simp [ServeMux.match, registeredMux, hx, hd]

theorem handler_registered (h : Handler) (host p : String) (hp : p.data.head? = some '/') :
    ServeMux.handler (registeredMux h) host p = Route.registered h "/" := by
  have hm := match_registered h p hp
  have hh : (registeredMux h).hosts = false := rfl
  simp [ServeMux.handler, hm, hh]

theorem Handler_registered (lib : Stdlib) (h : Handler) (r : Request)
    (hclean : cleanPath r.EscapedPath = r.EscapedPath) :
    ServeMux.Handler lib (registeredMux h) r = Route.registered h "/" := by
  have hp := head_of_cleanPath_eq r.EscapedPath hclean
  unfold ServeMux.Handler
  split
  · rw [shouldRedirect_registered h _ _ hp]
    simp [handler_registered h _ _ hp]
  · simp only [hclean, shouldRedirect_registered h _ _ hp]
    simp [handler_registered h _ _ hp]

theorem handler_on_newResponse (printVerb : List Nat → List Nat × Nat) (req r : Request) :
    handler printVerb response responseWriter (newResponse req) r =
      { newResponse req with
        wroteHeader := true, status := 200, written := 9,
        body := if req.Method = "HEAD" then [] else bytes "Success!\n" } := by
  rw [handler_eq_write, bytes_success]
  simp [responseWriter, response.Write, newResponse, response.WriteHeader, Header.get,
    bodyAllowedForStatus]

theorem serveRequest_registered (lib : Stdlib) (addr : String) (r : Request)
    (hacc : lib.readRequestError r = none) (hexp : expectationFailed r = false)
    (hstar : r.RequestURI ≠ "*") (hclean : cleanPath r.EscapedPath = r.EscapedPath) :
    serveRequest lib { Addr := addr, Handler := none } (registeredMux (handler lib.printVerb)) r =
      { newResponse r with
        wroteHeader := true, status := 200, written := 9,
        body := if r.Method = "HEAD" then [] else bytes "Success!\n" } := by
  simp only [serveRequest, hacc, hexp, serverHandler, ServeMux.ServeHTTP, hstar, false_and,
    if_false, Handler_registered lib _ r hclean, Route.toHandler, handler_on_newResponse]
  simp [response.finishRequest]

/-! ## Facts about the serve loop and main -/

theorem servesFrom_refl (lib : Stdlib) (srv : Server) (p : Process) :
    Process.servesFrom lib srv p p :=
  ⟨rfl, rfl, [], by simp, by simp⟩

theorem servesFrom_trans (lib : Stdlib) (srv : Server) (p q s : Process)
    (h1 : Process.servesFrom lib srv p q) (h2 : Process.servesFrom lib srv q s) :
    Process.servesFrom lib srv p s := by
  obtain ⟨hm1, hp1, evs1, ht1, he1⟩ := h1
  obtain ⟨hm2, hp2, evs2, ht2, he2⟩ := h2
  refine ⟨hm2.trans hm1, hp2.trans hp1, evs1 ++ evs2, ?_, ?_⟩
  · rw [ht2, ht1, List.append_assoc]
  · intro e he
    rcases List.mem_append.mp he with h | h
    · exact he1 e h
    · have := he2 e h
      rwa [hm1] at this

theorem serveNext_servesFrom (lib : Stdlib) (srv : Server) (p : Process) (i : Nat) :
    Process.servesFrom lib srv p (serveNext lib srv p i) := by
  unfold serveNext
  split
  · next r rest _ =>
    refine ⟨rfl, rfl, [Event.Served r (serveRequest lib srv p.DefaultServeMux r)], rfl, ?_⟩
    intro e he
    simp at he
    exact Or.inl ⟨r, he⟩
  · exact servesFrom_refl lib srv p

theorem runGoroutines_servesFrom (lib : Stdlib) (srv : Server) :
    ∀ (sched : List Nat) (p : Process),
      Process.servesFrom lib srv p (runGoroutines lib srv p sched) := by
  intro sched
  induction sched with
  | nil => intro p; exact servesFrom_refl lib srv p
  | cons i rest ih =>
    intro p
    exact servesFrom_trans lib srv _ _ _ (serveNext_servesFrom lib srv p i) (ih _)

theorem Serve_spec (lib : Stdlib) (world : World) (srv : Server) :
    ∀ (fuel k tempDelay : Nat) (p : Process),
      (Serve lib world srv fuel k tempDelay p).2 = acceptError world fuel k ∧
      Process.servesFrom lib srv p (Serve lib world srv fuel k tempDelay p).1 := by
  intro fuel
  induction fuel with
  | zero => intro k d p; exact ⟨rfl, servesFrom_refl lib srv p⟩
  | succ n ih =>
    intro k d p
    unfold Serve acceptError
    cases hk : world.Accept k with
    | conn requests =>
      simp only
      refine ⟨(ih _ _ _).1, ?_⟩
      refine servesFrom_trans lib srv p _ _ ?_ (ih _ _ _).2
      refine servesFrom_trans lib srv p { p with conns := p.conns ++ [requests] } _ ?_
        (runGoroutines_servesFrom lib srv _ _)
      exact ⟨rfl, rfl, [], by simp, by simp⟩
    | error err temporary =>
      cases temporary with
      | true =>
        simp only [if_true]
        refine ⟨(ih _ _ _).1, ?_⟩
        refine servesFrom_trans lib srv p _ _ ?_ (ih _ _ _).2
        refine servesFrom_trans lib srv p _ _ ?_ (runGoroutines_servesFrom lib srv _ _)
        refine ⟨rfl, rfl, [_], rfl, ?_⟩
        intro e he
        simp at he
        exact Or.inr ⟨_, he⟩
      | false =>
        simp only [Bool.false_eq_true, if_false]
        exact ⟨trivial, runGoroutines_servesFrom lib srv _ p⟩

theorem main_of_bind_failure (lib : Stdlib) (world : World) (fuel : Nat) (err : Error)
    (hbind : world.Listen "tcp" "127.0.0.1:5555" = some err) :
    main lib world fuel =
      { DefaultServeMux := registeredMux (handler lib.printVerb)
        phase := Phase.Terminated 1
        trace := [Event.Registered "/", Event.Listen "tcp" "127.0.0.1:5555",
                  Event.Logged err, Event.Exit 1]
        conns := [] } := by
  have hne : ("127.0.0.1:5555" = "") = False := by decide
  simp [main, HandleFunc_main, ListenAndServe, hne, hbind, Fatal]

theorem ListenAndServe_result (lib : Stdlib) (world : World) (fuel : Nat) (p : Process) :
    (ListenAndServe lib world fuel p "127.0.0.1:5555" none).2 = mainError world fuel := by
  have hne : ("127.0.0.1:5555" = "") = False := by decide
  simp only [ListenAndServe, hne, if_false, mainError]
  cases world.Listen "tcp" "127.0.0.1:5555" with
  | some err => rfl
  | none => exact (Serve_spec lib world _ fuel 0 0 _).1

theorem main_spec (lib : Stdlib) (world : World) (fuel : Nat) :
    (main lib world fuel).DefaultServeMux = registeredMux (handler lib.printVerb) ∧
    (main lib world fuel).phase =
      (match mainError world fuel with
        | some _ => Phase.Terminated 1
        | none => Phase.Listening) ∧
    ∃ evs, (∀ e ∈ evs, Event.isServing lib mainServer (registeredMux (handler lib.printVerb)) e) ∧
      (main lib world fuel).trace =
        [Event.Registered "/", Event.Listen "tcp" "127.0.0.1:5555"] ++ evs ++
          fatalEvents (mainError world fuel) := by
  cases hl : world.Listen "tcp" "127.0.0.1:5555" with
  | some err =>
    rw [main_of_bind_failure lib world fuel err hl]
    refine ⟨rfl, ?_, [], by simp, ?_⟩
    · simp [mainError, hl]
    · simp [mainError, hl, fatalEvents]
  | none =>
    have hne : ("127.0.0.1:5555" = "") = False := by decide
    obtain ⟨hres, hm, hp, evs, ht, he⟩ := Serve_spec lib world mainServer fuel 0 0
      { DefaultServeMux := registeredMux (handler lib.printVerb), phase := Phase.Listening
        trace := [Event.Registered "/", Event.Listen "tcp" "127.0.0.1:5555"], conns := [] }
    have hmain : main lib world fuel =
        match Serve lib world mainServer fuel 0 0
          { DefaultServeMux := registeredMux (handler lib.printVerb), phase := Phase.Listening
            trace := [Event.Registered "/", Event.Listen "tcp" "127.0.0.1:5555"], conns := [] } with
        | (p1, some err) => Fatal p1 err
        | (p1, none) => p1 := by
      simp [main, HandleFunc_main, ListenAndServe, hne, hl, mainServer]
    rw [hmain]
    simp only [mainError, hl]
    rw [← hres]
    cases hS : Serve lib world mainServer fuel 0 0
      { DefaultServeMux := registeredMux (handler lib.printVerb), phase := Phase.Listening
        trace := [Event.Registered "/", Event.Listen "tcp" "127.0.0.1:5555"], conns := [] } with
    | mk p1 res =>
      rw [hS] at hm hp ht
      simp only at hm hp ht
      cases res with
      | some err =>
        refine ⟨hm, ?_, evs, he, ?_⟩
        · simp [Fatal]
        · simp [Fatal, fatalEvents, ht]
      | none =>
        refine ⟨hm, ?_, evs, he, ?_⟩
        · simpa using hp
        · simp [fatalEvents, ht]

theorem acceptError_isSome_iff (world : World) :
    ∀ (fuel k : Nat),
      (∃ err, acceptError world fuel k = some err) ↔
        ∃ j err, k ≤ j ∧ j < k + fuel ∧ world.Accept j = AcceptResult.error err false := by
  intro fuel
  induction fuel with
  | zero =>
    intro k
    simp only [acceptError]
    constructor
    · rintro ⟨err, h⟩; cases h
    · rintro ⟨j, err, h1, h2, _⟩; omega
  | succ n ih =>
    intro k
    unfold acceptError
    cases hk : world.Accept k with
    | conn requests =>
      simp only [ih]
      constructor
      · rintro ⟨j, err, h1, h2, h3⟩
        exact ⟨j, err, by omega, by omega, h3⟩
      · rintro ⟨j, err, h1, h2, h3⟩
        have hjk : j ≠ k := by
          intro hj; subst hj; rw [hk] at h3; cases h3
        exact ⟨j, err, by omega, by omega, h3⟩
    | error e temporary =>
      cases temporary with
      | true =>
        simp only [if_true, ih]
        constructor
        · rintro ⟨j, err, h1, h2, h3⟩
          exact ⟨j, err, by omega, by omega, h3⟩
        · rintro ⟨j, err, h1, h2, h3⟩
          have hjk : j ≠ k := by
            intro hj; subst hj; rw [hk] at h3; cases h3
          exact ⟨j, err, by omega, by omega, h3⟩
      | false =>
        constructor
        · intro _
          exact ⟨k, e, le_refl k, by omega, hk⟩
        · intro _
          exact ⟨e, by simp⟩

theorem main_mux (lib : Stdlib) (world : World) (fuel : Nat) :
    (main lib world fuel).DefaultServeMux = registeredMux (handler lib.printVerb) :=
  (main_spec lib world fuel).1

theorem main_served (lib : Stdlib) (world : World) (fuel : Nat) (r : Request) (resp : response)
    (h : Event.Served r resp ∈ (main lib world fuel).trace) :
    resp = serveRequest lib mainServer (registeredMux (handler lib.printVerb)) r := by
  obtain ⟨_, _, evs, he, ht⟩ := main_spec lib world fuel
  rw [ht] at h
  simp only [List.mem_append] at h
  rcases h with (h | h) | h
  · simp at h
  · rcases he _ h with ⟨r2, h2⟩ | ⟨msg, h2⟩
    · cases h2; rfl
    · cases h2
  · cases hme : mainError world fuel with
    | none => rw [hme] at h; simp [fatalEvents] at h
    | some err => rw [hme] at h; simp [fatalEvents] at h

theorem main_phase (lib : Stdlib) (world : World) (fuel : Nat) :
    (main lib world fuel).phase =
      if world.Listen "tcp" "127.0.0.1:5555" = none ∧ acceptError world fuel 0 = none then
        Phase.Listening
      else Phase.Terminated 1 := by
  rw [(main_spec lib world fuel).2.1]
  simp only [mainError]
  cases world.Listen "tcp" "127.0.0.1:5555" with
  | some err => simp
  | none =>
    cases acceptError world fuel 0 with
    | some err => simp
    | none => simp

theorem acceptError_none_of_no_failure (world : World)
    (hacc : ∀ k err, world.Accept k ≠ AcceptResult.error err false) :
    ∀ fuel k, acceptError world fuel k = none := by
  intro fuel k
  cases h : acceptError world fuel k with
  | none => rfl
  | some err =>
    obtain ⟨j, e, _, _, hj⟩ := (acceptError_isSome_iff world fuel k).mp ⟨err, h⟩
    exact absurd hj (hacc j e)

theorem listens_serving (lib : Stdlib) (srv : Server) (mux : ServeMux) :
    ∀ evs : List Event, (∀ e ∈ evs, Event.isServing lib srv mux e) →
      evs.filterMap (fun e => match e with
        | Event.Listen network address => some (network, address)
        | _ => none) = [] := by
  intro evs
  induction evs with
  | nil => intro _; rfl
  | cons a t ih =>
    intro h
    have ht := ih (fun e he => h e (List.mem_cons_of_mem a he))
    rcases h a (List.mem_cons_self a t) with ⟨r, ha⟩ | ⟨msg, ha⟩
    · subst ha; simpa using ht
    · subst ha; simpa using ht

theorem registrations_serving (lib : Stdlib) (srv : Server) (mux : ServeMux) :
    ∀ evs : List Event, (∀ e ∈ evs, Event.isServing lib srv mux e) →
      evs.filterMap (fun e => match e with
        | Event.Registered pattern => some pattern
        | _ => none) = [] := by
  intro evs
  induction evs with
  | nil => intro _; rfl
  | cons a t ih =>
    intro h
    have ht := ih (fun e he => h e (List.mem_cons_of_mem a he))
    rcases h a (List.mem_cons_self a t) with ⟨r, ha⟩ | ⟨msg, ha⟩
    · subst ha; simpa using ht
    · subst ha; simpa using ht

theorem exit_not_serving (lib : Stdlib) (srv : Server) (mux : ServeMux) (code : Nat) :
    ¬ Event.isServing lib srv mux (Event.Exit code) := by
  rintro (⟨r, h⟩ | ⟨msg, h⟩) <;> cases h

/-! ## The handler's writes (C1, C3, C7) -/

/-- C1: for every request and every response writer (any implementation of
the interface, in any state), running the handler of `main.go` is exactly
one call `w.Write` whose argument is the 9 bytes `S u c c e s s ! \n` of the
literal "Success!\n", copied verbatim whatever `fmt` does at a `%`; on a
writer that records its calls, that single `Write` is the whole record, so
nothing is written before or after it. -/
theorem handler_writes_exactly_success (printVerb : List Nat → List Nat × Nat) (σ : Type)
    (W : ResponseWriter σ) (w : σ) (r : Request) :
    bytes "Success!\n" = [83, 117, 99, 99, 101, 115, 115, 33, 10] ∧
    (bytes "Success!\n").length = 9 ∧
    handler printVerb σ W w r = (W.Write w (bytes "Success!\n")).1 ∧
    handler printVerb (List Call) recorder [] r = [Call.Write (bytes "Success!\n")] := by
  refine ⟨bytes_success, ?_, handler_eq_write printVerb σ W w r, ?_⟩
  · rw [bytes_success]; rfl
  · rw [handler_eq_write]; rfl

/-- C3: the handler makes no `WriteHeader` call, so for every request the
status of the writer the server hands to the handler is, as soon as the
handler returns, the 200 implied by its one write, and stays 200 when the
server finishes the request.  In particular every request `GET /` that the
server's reader accepts and that carries no Expect header other than
`100-continue` (whatever its Host, other headers and body) is answered with
status 200 and body "Success!\n", in every run of `main`. -/
theorem handler_status_is_200 (lib : Stdlib) (world : World) (fuel : Nat) (r g : Request)
    (hget : g.Method = "GET") (htarget : g.RequestURI = "/") (hpath : g.EscapedPath = "/")
    (hacc : lib.readRequestError g = none) (hexp : expectationFailed g = false) :
    (∀ c ∈ handler lib.printVerb (List Call) recorder [] r,
      ∀ code, c ≠ Call.WriteHeader code) ∧
    (handler lib.printVerb response responseWriter (newResponse r) r).status = 200 ∧
    (response.finishRequest
      (handler lib.printVerb response responseWriter (newResponse r) r)).status = 200 ∧
    (serveRequest lib mainServer (main lib world fuel).DefaultServeMux g).status = 200 ∧
    (serveRequest lib mainServer (main lib world fuel).DefaultServeMux g).body =
      bytes "Success!\n" ∧
    ∀ resp, Event.Served g resp ∈ (main lib world fuel).trace →
      resp.status = 200 ∧ resp.body = bytes "Success!\n" := by
  have hs := serveRequest_registered lib "127.0.0.1:5555" g hacc hexp
    (by rw [htarget]; decide) (by rw [hpath]; decide)
  have hst : (serveRequest lib mainServer (registeredMux (handler lib.printVerb)) g).status =
      200 := by
    rw [mainServer, hs]
  have hb : (serveRequest lib mainServer (registeredMux (handler lib.printVerb)) g).body =
      bytes "Success!\n" := by
    rw [mainServer, hs]; simp [hget]
  refine ⟨?_, ?_, ?_, ?_, ?_, ?_⟩
  · intro c hc code
    rw [handler_eq_write] at hc
    simp [recorder] at hc
    subst hc
    simp
  · rw [handler_on_newResponse]
  · rw [handler_on_newResponse]
    simp [response.finishRequest]
  · rw [main_mux]; exact hst
  · rw [main_mux]; exact hb
  · intro resp hresp
    rw [main_served lib world fuel g resp hresp]
    exact ⟨hst, hb⟩

theorem handler_status_is_200_witness :
    (mkRequest "GET" "/").Method = "GET" ∧
    (mkRequest "GET" "/").RequestURI = "/" ∧
    (mkRequest "GET" "/").EscapedPath = "/" ∧
    stubLib.readRequestError (mkRequest "GET" "/") = none ∧
    expectationFailed (mkRequest "GET" "/") = false ∧
    Event.Served (mkRequest "GET" "/")
        (serveRequest stubLib mainServer (registeredMux (handler stubLib.printVerb))
          (mkRequest "GET" "/")) ∈ (main stubLib worldServing 1).trace ∧
    (serveRequest stubLib mainServer (main stubLib worldServing 1).DefaultServeMux
      (mkRequest "GET" "/")).status = 200 ∧
    (serveRequest stubLib mainServer (main stubLib worldServing 1).DefaultServeMux
      (mkRequest "GET" "/")).body = bytes "Success!\n" :=
  ⟨rfl, rfl, rfl, by decide, by decide, by decide,
   (handler_status_is_200 stubLib worldServing 1 (mkRequest "HEAD" "/x") (mkRequest "GET" "/")
      rfl rfl rfl (by decide) (by decide)).2.2.2.1,
   (handler_status_is_200 stubLib worldServing 1 (mkRequest "HEAD" "/x") (mkRequest "GET" "/")
      rfl rfl rfl (by decide) (by decide)).2.2.2.2.1⟩

/-- C7, counterexample: on the library's own `httptest.ResponseRecorder`,
whose `Write` stores a sniffed Content-Type in its header map, the header
map is empty before the handler runs and holds Content-Type after. -/
theorem recorder_header_changes_under_handler :
    responseRecorder.Header NewRecorder = [] ∧
    responseRecorder.Header
      (handler stubLib.printVerb ResponseRecorder responseRecorder NewRecorder
        (mkRequest "GET" "/")) = [("Content-Type", ["text/plain; charset=utf-8"])] := by
  decide

/-- C7, amended: the handler itself sets no header: it makes no call that
edits the header map, only its one `Write`.  So for every request and every
response writer whose `Write` of the body leaves its header map as it was,
the header map after the handler equals the map before; the writer the
server creates for a request is of that kind. -/
theorem handler_sets_no_header (printVerb : List Nat → List Nat × Nat) (σ : Type)
    (W : ResponseWriter σ) (w : σ) (r : Request)
    (hframe : W.Header (W.Write w (bytes "Success!\n")).1 = W.Header w) :
    W.Header (handler printVerb σ W w r) = W.Header w ∧
    (∀ c ∈ handler printVerb (List Call) recorder [] r, ∀ h, c ≠ Call.SetHeader h) ∧
    ∀ req : Request,
      responseWriter.Header (handler printVerb response responseWriter (newResponse req) r) =
        responseWriter.Header (newResponse req) := by
  refine ⟨?_, ?_, ?_⟩
  · rw [handler_eq_write]; exact hframe
  · intro c hc h
    rw [handler_eq_write] at hc
    simp [recorder] at hc
    subst hc
    simp
  · intro req
    rw [handler_on_newResponse]
    rfl

theorem handler_sets_no_header_witness :
    responseWriter.Header
        (responseWriter.Write (newResponse (mkRequest "GET" "/")) (bytes "Success!\n")).1 =
      responseWriter.Header (newResponse (mkRequest "GET" "/")) ∧
    responseWriter.Header
        (handler stubLib.printVerb response responseWriter (newResponse (mkRequest "GET" "/"))
          (mkRequest "GET" "/")) =
      responseWriter.Header (newResponse (mkRequest "GET" "/")) :=
  ⟨by decide,
   (handler_sets_no_header stubLib.printVerb response responseWriter
      (newResponse (mkRequest "GET" "/")) (mkRequest "GET" "/") (by decide)).1⟩

/-! ## Dispatch (C2) -/

/-- C2, counterexample: with the handler registered as `main` does, the
default mux answers `GET //x` itself, with a redirect to `/x` (status 307
in this library instance); the answer to `HEAD /` carries no body; and
`GET /` with the header `Expect: foo` is answered with 417 before any
handler is called. -/
theorem unclean_path_redirected_and_head_without_body :
    ServeMux.Handler stubLib (main stubLib worldServing 1).DefaultServeMux
        (mkRequest "GET" "//x") =
      Route.redirect { Path := "/x", RawQuery := "" } 307 "/" ∧
    (serveRequest stubLib mainServer (main stubLib worldServing 1).DefaultServeMux
        (mkRequest "GET" "//x")).status = 307 ∧
    (serveRequest stubLib mainServer (main stubLib worldServing 1).DefaultServeMux
        (mkRequest "HEAD" "/")).body = [] ∧
    (serveRequest stubLib mainServer (main stubLib worldServing 1).DefaultServeMux
        { mkRequest "GET" "/" with Header := [("Expect", ["foo"])] }).status = 417 ∧
    (serveRequest stubLib mainServer (main stubLib worldServing 1).DefaultServeMux
        { mkRequest "GET" "/" with Header := [("Expect", ["foo"])] }).body = [] ∧
    bytes "Success!\n" ≠ [] := by
  refine ⟨?_, ?_, ?_, ?_, ?_, ?_⟩
  · rfl
  · decide
  · decide
  · decide
  · decide
  · decide

/-- C2, amended: for every request that the server's reader accepts, whose
method is not HEAD, whose target is not `*`, whose path is in the mux's
canonical form (`cleanPath P = P` for the escaped path `P`: it starts with a
slash and has no empty, `.` or `..` element) and that carries no Expect
header other than `100-continue`, the server started by `main` answers with
status 200 and a body that is exactly "Success!\n"; so does every response
the process sends to such a request, in every run. -/
theorem clean_path_gets_success (lib : Stdlib) (world : World) (fuel : Nat) (r : Request)
    (hacc : lib.readRequestError r = none) (hexp : expectationFailed r = false)
    (hstar : r.RequestURI ≠ "*") (hhead : r.Method ≠ "HEAD")
    (hclean : cleanPath r.EscapedPath = r.EscapedPath) :
    (serveRequest lib mainServer (main lib world fuel).DefaultServeMux r).body =
      bytes "Success!\n" ∧
    (serveRequest lib mainServer (main lib world fuel).DefaultServeMux r).status = 200 ∧
    ∀ resp, Event.Served r resp ∈ (main lib world fuel).trace →
      resp.body = bytes "Success!\n" ∧ resp.status = 200 := by
  have hs := serveRequest_registered lib "127.0.0.1:5555" r hacc hexp hstar hclean
  have hb : (serveRequest lib mainServer (registeredMux (handler lib.printVerb)) r).body =
      bytes "Success!\n" := by
    rw [mainServer, hs]; simp [hhead]
  have hst : (serveRequest lib mainServer (registeredMux (handler lib.printVerb)) r).status =
      200 := by
    rw [mainServer, hs]
  refine ⟨?_, ?_, ?_⟩
  · rw [main_mux]; exact hb
  · rw [main_mux]; exact hst
  · intro resp hresp
    rw [main_served lib world fuel r resp hresp]
    exact ⟨hb, hst⟩

theorem clean_path_gets_success_witness :
    stubLib.readRequestError
      { mkRequest "POST" "/anything/at/all" with Body := [120, 121] } = none ∧
    expectationFailed { mkRequest "POST" "/anything/at/all" with Body := [120, 121] } = false ∧
    ({ mkRequest "POST" "/anything/at/all" with Body := [120, 121] } : Request).RequestURI ≠ "*" ∧
    ({ mkRequest "POST" "/anything/at/all" with Body := [120, 121] } : Request).Method ≠ "HEAD" ∧
    cleanPath
        ({ mkRequest "POST" "/anything/at/all" with Body := [120, 121] } : Request).EscapedPath =
      ({ mkRequest "POST" "/anything/at/all" with Body := [120, 121] } : Request).EscapedPath ∧
    Event.Served { mkRequest "POST" "/anything/at/all" with Body := [120, 121] }
        (serveRequest stubLib mainServer (registeredMux (handler stubLib.printVerb))
          { mkRequest "POST" "/anything/at/all" with Body := [120, 121] }) ∈
      (main stubLib worldServing 1).trace ∧
    (serveRequest stubLib mainServer (main stubLib worldServing 1).DefaultServeMux
      { mkRequest "POST" "/anything/at/all" with Body := [120, 121] }).body =
        bytes "Success!\n" :=
  ⟨by decide, by decide, by decide, by decide, by decide, by decide,
   (clean_path_gets_success stubLib worldServing 1
      { mkRequest "POST" "/anything/at/all" with Body := [120, 121] }
      (by decide) (by decide) (by decide) (by decide) (by decide)).1⟩

/-! ## Start-up and termination (C4, C5, C6, C8, C10) -/

/-- C4: when `net.Listen` fails, `main` logs exactly that error and ends
the process with the non-zero exit status 1, however long it is observed;
the handler is never invoked and no response is sent: the whole history of
the process is register, listen, log, exit. -/
theorem bind_failure_is_fatal (lib : Stdlib) (world : World) (fuel : Nat) (err : Error)
    (hbind : world.Listen "tcp" "127.0.0.1:5555" = some err) :
    (main lib world fuel).phase = Phase.Terminated 1 ∧
    (main lib world fuel).logged = [err] ∧
    (main lib world fuel).responses = [] ∧
    (main lib world fuel).trace =
      [Event.Registered "/", Event.Listen "tcp" "127.0.0.1:5555",
       Event.Logged err, Event.Exit 1] := by
  rw [main_of_bind_failure lib world fuel err hbind]
  simp [Process.logged, Process.responses]

theorem bind_failure_is_fatal_witness :
    worldPortInUse.Listen "tcp" "127.0.0.1:5555" =
      some "listen tcp 127.0.0.1:5555: bind: address already in use" ∧
    (main stubLib worldPortInUse 5).phase = Phase.Terminated 1 ∧
    (main stubLib worldPortInUse 5).logged =
      ["listen tcp 127.0.0.1:5555: bind: address already in use"] ∧
    (main stubLib worldPortInUse 5).responses = [] :=
  ⟨rfl,
   (bind_failure_is_fatal stubLib worldPortInUse 5 _ rfl).1,
   (bind_failure_is_fatal stubLib worldPortInUse 5 _ rfl).2.1,
   (bind_failure_is_fatal stubLib worldPortInUse 5 _ rfl).2.2.1⟩

/-- C5, counterexample: the bind succeeds, the first `Accept` returns an
error that is not temporary, `Serve` returns it and `log.Fatal` ends the
process with exit status 1. -/
theorem accept_failure_is_fatal_after_bind :
    worldAcceptFails.Listen "tcp" "127.0.0.1:5555" = none ∧
    (main stubLib worldAcceptFails 1).phase = Phase.Terminated 1 ∧
    (main stubLib worldAcceptFails 1).logged =
      ["accept tcp 127.0.0.1:5555: accept: cannot allocate memory"] := by
  decide

/-- C5, amended: `main` is fatal on whatever error `ListenAndServe`
returns.  The process terminates fatally (exit status 1) if and only if the
listening address could not be acquired or, after the bind, some `Accept` of
the serve loop fails with an error that is not temporary; handling requests
and temporary `Accept` errors never end it: at every moment the process is
listening or has ended with status 1. -/
theorem fatal_iff_bind_or_accept_failure (lib : Stdlib) (world : World) :
    ((∃ fuel, (main lib world fuel).phase = Phase.Terminated 1) ↔
      (world.Listen "tcp" "127.0.0.1:5555" ≠ none ∨
        ∃ k err, world.Accept k = AcceptResult.error err false)) ∧
    ∀ fuel, (main lib world fuel).phase = Phase.Listening ∨
      (main lib world fuel).phase = Phase.Terminated 1 := by
  constructor
  · constructor
    · rintro ⟨fuel, h⟩
      rw [main_phase] at h
      by_cases hl : world.Listen "tcp" "127.0.0.1:5555" = none
      · right
        cases he : acceptError world fuel 0 with
        | none => simp [hl, he] at h
        | some err =>
          obtain ⟨j, e, _, _, hj⟩ := (acceptError_isSome_iff world fuel 0).mp ⟨err, he⟩
          exact ⟨j, e, hj⟩
      · left; exact hl
    · rintro (hl | ⟨k, err, hk⟩)
      · exact ⟨0, by rw [main_phase]; simp [hl]⟩
      · refine ⟨k + 1, ?_⟩
        rw [main_phase]
        obtain ⟨e, he⟩ := (acceptError_isSome_iff world (k + 1) 0).mpr
          ⟨k, err, Nat.zero_le k, by omega, hk⟩
        simp [he]
  · intro fuel
    rw [main_phase]
    split
    · left; rfl
    · right; rfl

/-- C6: in every run, whatever the command line, the environment, the
outcome of the bind and the traffic, `main` asks for exactly one listener,
on network `tcp` and address `127.0.0.1:5555`. -/
theorem listen_address_is_fixed (lib : Stdlib) (world : World) (fuel : Nat) :
    (main lib world fuel).listens = [("tcp", "127.0.0.1:5555")] := by
  obtain ⟨_, _, evs, he, ht⟩ := main_spec lib world fuel
  simp only [Process.listens, ht, List.filterMap_append, listens_serving lib _ _ evs he]
  cases mainError world fuel with
  | some err => rfl
  | none => rfl

/-- C8, counterexample: the bind succeeds and one connection is served,
the process is listening after two calls of `Accept` (the second a
temporary error, logged and retried); the third `Accept` fails for good,
`ListenAndServe` returns and the process ends itself with exit status 1. -/
theorem serve_loop_can_return_after_bind :
    worldServesThenFails.Listen "tcp" "127.0.0.1:5555" = none ∧
    (main stubLib worldServesThenFails 2).phase = Phase.Listening ∧
    (main stubLib worldServesThenFails 3).phase = Phase.Terminated 1 ∧
    (main stubLib worldServesThenFails 3).logged =
      ["http: Accept error: accept tcp 127.0.0.1:5555: accept: too many open files; retrying in 5ms",
       "accept tcp 127.0.0.1:5555: accept: no buffer space available"] ∧
    Event.Exit 1 ∈ (main stubLib worldServesThenFails 3).trace := by
  decide

/-- C8, amended: when the bind succeeds and no `Accept` fails with an
error that is not temporary, `ListenAndServe` never returns: however many
calls of `Accept` have been made, it has returned no error to `main`, the
process is in the Listening state and it has not exited. -/
theorem listening_while_accept_does_not_fail (lib : Stdlib) (world : World) (fuel : Nat)
    (hbind : world.Listen "tcp" "127.0.0.1:5555" = none)
    (hacc : ∀ k err, world.Accept k ≠ AcceptResult.error err false) :
    (∀ p, (ListenAndServe lib world fuel p "127.0.0.1:5555" none).2 = none) ∧
    (main lib world fuel).phase = Phase.Listening ∧
    ∀ code, Event.Exit code ∉ (main lib world fuel).trace := by
  have he := acceptError_none_of_no_failure world hacc fuel 0
  have hme : mainError world fuel = none := by simp [mainError, hbind, he]
  refine ⟨?_, ?_, ?_⟩
  · intro p
    rw [ListenAndServe_result, hme]
  · rw [main_phase]; simp [hbind, he]
  · intro code hmem
    obtain ⟨_, _, evs, hev, ht⟩ := main_spec lib world fuel
    rw [ht, hme] at hmem
    simp only [fatalEvents, List.append_nil, List.mem_append] at hmem
    rcases hmem with h | h
    · simp at h
    · exact exit_not_serving lib _ _ code (hev _ h)

theorem listening_while_accept_does_not_fail_witness :
    worldServing.Listen "tcp" "127.0.0.1:5555" = none ∧
    (∀ k err, worldServing.Accept k ≠ AcceptResult.error err false) ∧
    (main stubLib worldServing 3).phase = Phase.Listening :=
  ⟨rfl, fun _ _ h => AcceptResult.noConfusion h,
   (listening_while_accept_does_not_fail stubLib worldServing 3 rfl
      (fun _ _ h => AcceptResult.noConfusion h)).2.1⟩

/-- C10: the registration of `/` on the empty default mux succeeds (no
duplicate, no panic) and is the only one; it is the first thing the process
does, the call of `net.Listen` the second, so every request is served after
it; the server has a nil handler, so each request other than `OPTIONS *`
goes through the default mux, which in every state of the process holds
exactly the pattern `/`, and every response sent is the one that mux
gives. -/
theorem registration_precedes_listening (lib : Stdlib) (world : World) (fuel : Nat) :
    HandleFunc DefaultServeMux "/" (some (handler lib.printVerb)) =
      Except.ok (main lib world fuel).DefaultServeMux ∧
    (main lib world fuel).DefaultServeMux.patterns = ["/"] ∧
    (main lib world fuel).registrations = ["/"] ∧
    (main lib world fuel).trace.take 2 =
      [Event.Registered "/", Event.Listen "tcp" "127.0.0.1:5555"] ∧
    mainServer.Handler.isNone = true ∧
    (∀ (σ : Type) (W : ResponseWriter σ) (w : σ) (r : Request),
      ¬ (r.RequestURI = "*" ∧ r.Method = "OPTIONS") →
      serverHandler lib mainServer (main lib world fuel).DefaultServeMux σ W w r =
        ServeMux.ServeHTTP lib (main lib world fuel).DefaultServeMux σ W w r) ∧
    ∀ r resp, Event.Served r resp ∈ (main lib world fuel).trace →
      resp = serveRequest lib mainServer (main lib world fuel).DefaultServeMux r := by
  obtain ⟨_, _, evs, he, ht⟩ := main_spec lib world fuel
  refine ⟨?_, ?_, ?_, ?_, rfl, ?_, ?_⟩
  · rw [main_mux, HandleFunc_main]
  · rw [main_mux]; rfl
  · simp only [Process.registrations, ht, List.filterMap_append,
      registrations_serving lib _ _ evs he]
    cases mainError world fuel with
    | some err => rfl
    | none => rfl
  · rw [ht]
    rfl
  · intro σ W w r hr
    simp [serverHandler, mainServer, hr]
  · intro r resp h
    rw [main_mux]
    exact main_served lib world fuel r resp h

end EnvoySimple
